import Mathlib

/-!
Verification development for the agemcp repository.

The definitions below are a shallow embedding of the Python sources:
  - src/agemcp/db.py                          (agtype decoding, graph records)
  - src/agemcp/lru_cache.py                   (bounded LRU cache)
  - src/agemcp/database_connection_settings.py (connection settings, engine lifecycle)

Python values flowing through the decoders are modelled by the inductive
type PyVal; stateful context-variable caches are modelled by explicit state
passing; Python exceptions are modelled with Except.
-/

namespace Agemcp

/-- Model of a dynamically typed Python value as it occurs in this code base:
strings, ints, booleans, None, lists and (insertion-ordered) dicts. -/
inductive PyVal where
  | str : String → PyVal
  | int : Int → PyVal
  | bool : Bool → PyVal
  | none : PyVal
  | list : List PyVal → PyVal
  | dict : List (String × PyVal) → PyVal

/-- True when the value is Python None. -/
def PyVal.isNone : PyVal → Bool
  | .none => true
  | _ => false

/-- Whitespace characters accepted between JSON tokens. -/
def isJsonWs (c : Char) : Bool :=
  c = ' ' || c = '\t' || c = '\n' || c = '\r'

/-- Drop leading JSON whitespace. -/
def skipWs : List Char → List Char
  | [] => []
  | c :: cs => if isJsonWs c then skipWs cs else c :: cs

/-- Does the character list contain the pattern as a contiguous sublist?
Model of the Python substring test (pat in s). -/
def hasSubList (pat : List Char) : List Char → Bool
  | [] => pat.isEmpty
  | c :: cs => pat.isPrefixOf (c :: cs) || hasSubList pat cs

/-- Model of the Python substring containment test (pat in s). -/
def strContains (s pat : String) : Bool :=
  hasSubList pat.data s.data

/-- Parse the body of a JSON string literal (the opening quote already
consumed), returning the decoded string and the remaining input. -/
def parseStringBody : List Char → Except String (String × List Char)
  | [] => .error "Unterminated string"
  | '"' :: cs => .ok ("", cs)
  | '\\' :: c :: cs => do
      let esc : String ←
        match c with
        | '"' => pure "\""
        | '\\' => pure "\\"
        | '/' => pure "/"
        | 'n' => pure "\n"
        | 't' => pure "\t"
        | 'r' => pure "\r"
        | 'b' => pure "\x08"
        | 'f' => pure "\x0c"
        | _ => Except.error "Unsupported escape in model"
      let (rest, cs1) ← parseStringBody cs
      .ok (esc ++ rest, cs1)
  | c :: cs => do
      let (rest, cs1) ← parseStringBody cs
      .ok (String.mk (c :: rest.data), cs1)

/-- Numeric value of a list of decimal digits. -/
def digitsToNat (ds : List Char) : Nat :=
  List.foldl (fun n c => n * 10 + (c.toNat - 48)) 0 ds

/-- Parse a JSON integer literal (floats are outside this model; the code
under verification only ever round-trips objects, arrays, strings and
integers through the JSON layer). -/
def parseIntVal (cs : List Char) : Except String (PyVal × List Char) :=
  let neg : Bool := match cs with | '-' :: _ => true | _ => false
  let cs1 : List Char := match cs with | '-' :: t => t | _ => cs
  let digs := cs1.takeWhile (fun c => c.isDigit)
  let rest := cs1.dropWhile (fun c => c.isDigit)
  if digs.isEmpty then .error "Expecting value"
  else
    match rest with
    | '.' :: _ => .error "Float literals are outside this model"
    | 'e' :: _ => .error "Float literals are outside this model"
    | 'E' :: _ => .error "Float literals are outside this model"
    | _ =>
      let n : Int := Int.ofNat (digitsToNat digs)
      .ok (.int (if neg then -n else n), rest)

mutual

/-- Fuel-indexed recursive-descent parser for one JSON value, a model of
Python json.loads. Returns the value and the unconsumed input. -/
def parseVal : Nat → List Char → Except String (PyVal × List Char)
  | 0, _ => .error "Parser fuel exhausted"
  | fuel + 1, cs =>
    match skipWs cs with
    | [] => .error "Expecting value"
    | '{' :: rest =>
        (match skipWs rest with
         | '}' :: rest1 => .ok (.dict [], rest1)
         | rest1 => do
             let (ms, rest2) ← parseMembers fuel rest1
             .ok (.dict ms, rest2))
    | '[' :: rest =>
        (match skipWs rest with
         | ']' :: rest1 => .ok (.list [], rest1)
         | rest1 => do
             let (xs, rest2) ← parseItems fuel rest1
             .ok (.list xs, rest2))
    | '"' :: rest => do
        let (s, rest1) ← parseStringBody rest
        .ok (.str s, rest1)
    | 't' :: 'r' :: 'u' :: 'e' :: rest => .ok (.bool true, rest)
    | 'f' :: 'a' :: 'l' :: 's' :: 'e' :: rest => .ok (.bool false, rest)
    | 'n' :: 'u' :: 'l' :: 'l' :: rest => .ok (.none, rest)
    | cs1 => parseIntVal cs1

/-- Parse the comma-separated items of a non-empty JSON array, up to and
including the closing bracket. -/
def parseItems : Nat → List Char → Except String (List PyVal × List Char)
  | 0, _ => .error "Parser fuel exhausted"
  | fuel + 1, cs => do
      let (v, rest) ← parseVal fuel cs
      match skipWs rest with
      | ',' :: rest1 => do
          let (xs, rest2) ← parseItems fuel rest1
          .ok (v :: xs, rest2)
      | ']' :: rest1 => .ok ([v], rest1)
      | _ => .error "Expecting comma or close bracket delimiter"

/-- Parse the comma-separated members of a non-empty JSON object, up to and
including the closing brace. -/
def parseMembers : Nat → List Char → Except String (List (String × PyVal) × List Char)
  | 0, _ => .error "Parser fuel exhausted"
  | fuel + 1, cs =>
      match skipWs cs with
      | '"' :: rest => do
          let (k, rest1) ← parseStringBody rest
          match skipWs rest1 with
          | ':' :: rest2 => do
              let (v, rest3) ← parseVal fuel rest2
              match skipWs rest3 with
              | ',' :: rest4 => do
                  let (ms, rest5) ← parseMembers fuel rest4
                  .ok ((k, v) :: ms, rest5)
              | '}' :: rest4 => .ok ([(k, v)], rest4)
              | _ => .error "Expecting comma or close brace delimiter"
          | _ => .error "Expecting colon delimiter"
      | _ => .error "Expecting property name enclosed in double quotes"

end

/-- Scan the character list left to right; wherever the (nonempty) pattern
is a prefix, emit the replacement and skip the pattern, otherwise keep the
character. Fuel equals the input length, so it never runs out for a
nonempty pattern. -/
def pyReplaceAux (pat repl : List Char) : Nat → List Char → List Char
  | 0, rest => rest
  | fuel + 1, cs =>
    match cs with
    | [] => []
    | c :: cs1 =>
      if pat.isPrefixOf cs then repl ++ pyReplaceAux pat repl fuel (cs.drop pat.length)
      else c :: pyReplaceAux pat repl fuel cs1

/-- Model of the Python string replace method (single left-to-right pass,
non-overlapping occurrences) for a nonempty pattern. -/
def pyReplace (s pat repl : String) : String :=
  String.mk (pyReplaceAux pat.data repl.data s.data.length s.data)

/-- Model of Python json.loads restricted to the value shapes this code
base exchanges: parse one JSON document and require only trailing
whitespace after it. -/
def json_loads (s : String) : Except String PyVal := do
  let (v, rest) ← parseVal (s.length + 1) s.data
  if (skipWs rest).isEmpty then .ok v else .error "Extra data"

/-- Model of the Python string startswith method. -/
def strStarts (s pre : String) : Bool :=
  pre.data.isPrefixOf s.data

/-- Model of the Python string endswith method. -/
def strEnds (s suf : String) : Bool :=
  suf.data.isSuffixOf s.data

/-- Embedding of decode_agtype_string from src/agemcp/db.py: a string that
looks like a JSON object or array is parsed as JSON; anything else is
returned unchanged. -/
def decode_agtype_string (agtype_string : String) : Except String PyVal :=
  if strStarts agtype_string "\x7b" && strEnds agtype_string "\x7d" then
    json_loads agtype_string
  else if strStarts agtype_string "[" && strEnds agtype_string "]" then
    json_loads agtype_string
  else
    .ok (.str agtype_string)

/-- Embedding of decode_record from src/agemcp/db.py: iterate the row's
key/value pairs in order; a string value containing the substring :: is
decoded with decode_agtype_string, every other value is kept as is. A
decode exception aborts the whole call. -/
def decode_record : List (String × PyVal) → Except String (List (String × PyVal))
  | [] => .ok []
  | (key, value) :: rest => do
      let value1 ←
        match value with
        | .str s => if strContains s "::" then decode_agtype_string s else pure (PyVal.str s)
        | v => pure v
      let tail ← decode_record rest
      .ok ((key, value1) :: tail)

/-- Statement of the spec's decode_row contract in its own words: for any
string value containing the substring ::, use the scalar decoder's result
in place of the raw string; all other values pass through unchanged. Used
to compare the source function decode_record against the spec sentence. -/
def decodeRowSpec (row : List (String × PyVal)) : Except String (List (String × PyVal)) :=
  row.mapM fun kv =>
    match kv.2 with
    | .str s =>
        if strContains s "::" then
          do let v ← decode_agtype_string s; pure (kv.1, v)
        else pure kv
    | _ => pure kv

/-- Embedding of the list comprehension in decode_asyncio_agtype_recordset:
collect, in row order then within-row column order, every string value
containing the substring ::. -/
def collectAgtypeStrings (records : List (List (String × PyVal))) : List String :=
  records.flatMap fun record =>
    record.filterMap fun kv =>
      match kv.2 with
      | .str s => if strContains s "::" then some s else Option.none
      | _ => Option.none

/-- Embedding of decode_asyncio_agtype_recordset from src/agemcp/db.py:
collect the tagged strings, return [] when there are none, otherwise join
with commas, strip the vertex and edge tags, wrap in brackets and parse
once as a JSON array. -/
def decode_asyncio_agtype_recordset (records : List (List (String × PyVal))) :
    Except String (List PyVal) :=
  let agtype_strings := collectAgtypeStrings records
  if agtype_strings.isEmpty then .ok []
  else
    let concat := String.intercalate "," agtype_strings
    let concat := pyReplace concat "::vertex" ""
    let concat := pyReplace concat "::edge" ""
    let json_array := "[" ++ concat ++ "]"
    match json_loads json_array with
    | .ok (.list xs) => .ok xs
    | .ok v => .ok [v]
    | .error e => .error e

/-- Reference algorithm for the batch decoder, written from the spec's
enumerated steps: collect every ::-bearing string across the rows in row
order then column order; if none, the empty sequence; otherwise join the
collected strings with commas, delete the occurrences of the literal tags
::vertex and ::edge, wrap in brackets, parse once as a JSON array and
return its elements in order; malformed JSON is an error with no partial
results. The collection pass is written as explicit recursion to follow
the spec's row-then-column wording. -/
def collectTaggedRow : List (String × PyVal) → List String
  | [] => []
  | (_, v) :: rest =>
      (match v with
       | .str s => if strContains s "::" then [s] else []
       | _ => []) ++ collectTaggedRow rest

/-- Row-by-row collection pass of the reference batch algorithm. -/
def collectTagged : List (List (String × PyVal)) → List String
  | [] => []
  | row :: rest => collectTaggedRow row ++ collectTagged rest

/-- Reference batch decoder assembled from the spec's steps 2 to 6. -/
def decodeBatchSpec (rows : List (List (String × PyVal))) : Except String (List PyVal) :=
  match collectTagged rows with
  | [] => .ok []
  | tagged => do
      let joined := String.intercalate "," tagged
      let stripped := pyReplace (pyReplace joined "::vertex" "") "::edge" ""
      let parsed ← json_loads ("[" ++ stripped ++ "]")
      match parsed with
      | .list xs => .ok xs
      | v => .ok [v]

/-- Embedding of the AgtypeRecord dataclass from src/agemcp/db.py. The
dataclass is dynamically typed, so every field holds a PyVal; label is
required, properties defaults to an empty dict, the identifiers default to
None, and the private field below holds an explicitly supplied kind. -/
structure AgtypeRecord where
  label : PyVal
  properties : PyVal := .dict []
  id : PyVal := .none
  start_id : PyVal := .none
  end_id : PyVal := .none
  _type : PyVal := .none

/-- Embedding of AgtypeRecord construction including the post-init hook
from src/agemcp/db.py: a None label raises TypeError, and a None
properties value is replaced by an empty dict. -/
def mkAgtypeRecord (label properties id start_id end_id ty : PyVal) :
    Except String AgtypeRecord :=
  if label.isNone then
    .error "TypeError: AgtypeRecord requires a label field."
  else
    .ok { label := label
          properties := if properties.isNone then .dict [] else properties
          id := id
          start_id := start_id
          end_id := end_id
          _type := ty }

/-- Embedding of DbRecord.to_dict from src/agemcp/db.py, specialised to
AgtypeRecord: asdict lists every dataclass field in declaration order,
including the private kind field. -/
def AgtypeRecord.to_dict (r : AgtypeRecord) : List (String × PyVal) :=
  [("label", r.label), ("properties", r.properties), ("id", r.id),
   ("start_id", r.start_id), ("end_id", r.end_id), ("_type", r._type)]

/-- Field names accepted by the AgtypeRecord constructor as keywords. -/
def agtypeRecordKeys : List String :=
  ["label", "properties", "id", "start_id", "end_id", "_type"]

/-- Look up a key in an association list of dict entries. -/
def lookupKey (k : String) : List (String × PyVal) → Option PyVal
  | [] => Option.none
  | (k1, v) :: rest => if k1 = k then some v else lookupKey k rest

/-- Embedding of DbRecord.from_dict specialised to AgtypeRecord: calling
the constructor with the dictionary splatted as keywords. A key that is
not a constructor parameter raises TypeError, a missing label raises
TypeError, absent optional keys take their dataclass defaults, and the
post-init hook then runs. -/
def AgtypeRecord.from_dict (data : List (String × PyVal)) :
    Except String AgtypeRecord :=
  if data.any (fun kv => decide (kv.1 ∉ agtypeRecordKeys)) then
    .error "TypeError: unexpected keyword argument"
  else
    match lookupKey "label" data with
    | Option.none => .error "TypeError: missing required argument label"
    | some lbl =>
        mkAgtypeRecord lbl
          ((lookupKey "properties" data).getD (.dict []))
          ((lookupKey "id" data).getD .none)
          ((lookupKey "start_id" data).getD .none)
          ((lookupKey "end_id" data).getD .none)
          ((lookupKey "_type" data).getD .none)

/-- Embedding of the AgtypeRecord type property from src/agemcp/db.py: an
explicitly stored kind wins; otherwise the record is an edge exactly when
both identifiers are set, and a vertex otherwise. -/
def AgtypeRecord.type (r : AgtypeRecord) : PyVal :=
  if r._type.isNone then
    if !r.start_id.isNone && !r.end_id.isNone then .str "edge" else .str "vertex"
  else r._type

/-- Embedding of LRUCache from src/agemcp/lru_cache.py. The ordered dict
is modelled as a list of key/value pairs from least to most recently
used; the capacity field mirrors max_size. -/
structure LRUCache (K V : Type) where
  cache : List (K × V)
  max_size : Nat

/-- Embedding of LRUCache.get: a missing key returns None and leaves the
cache alone; a present key is moved to the most-recent end and its value
returned. -/
def LRUCache.get [DecidableEq K] (c : LRUCache K V) (k : K) :
    Option V × LRUCache K V :=
  match c.cache.find? (fun p => decide (p.1 = k)) with
  | Option.none => (Option.none, c)
  | some p =>
      (some p.2, ⟨(c.cache.eraseP (fun q => decide (q.1 = k))) ++ [p], c.max_size⟩)

/-- Embedding of LRUCache.put: an existing key is deleted first; otherwise
a cache at capacity pops its least-recent entry, which raises KeyError on
an empty ordered dict (reachable when max_size is zero); finally the new
pair is appended at the most-recent end. -/
def LRUCache.put [DecidableEq K] (c : LRUCache K V) (k : K) (v : V) :
    Except String (LRUCache K V) :=
  if k ∈ c.cache.map Prod.fst then
    .ok ⟨(c.cache.eraseP (fun q => decide (q.1 = k))) ++ [(k, v)], c.max_size⟩
  else if c.max_size ≤ c.cache.length then
    match c.cache with
    | [] => .error "KeyError: dictionary is empty"
    | _ :: rest => .ok ⟨rest ++ [(k, v)], c.max_size⟩
  else
    .ok ⟨c.cache ++ [(k, v)], c.max_size⟩

/-- Embedding of LRUCache.clear: with no predicate every entry goes; with
a predicate exactly the entries it selects are deleted, the rest keeping
their relative order. -/
def LRUCache.clear (c : LRUCache K V) (f : Option ((K × V) → Bool)) :
    LRUCache K V :=
  match f with
  | Option.none => ⟨[], c.max_size⟩
  | some pred => ⟨c.cache.filter (fun p => !pred p), c.max_size⟩

/-- State transition of a put call at the level of the cache object: a
raised KeyError propagates to the caller before any mutation, so the
cache is unchanged on the error path. -/
def LRUCache.putRun [DecidableEq K] (c : LRUCache K V) (k : K) (v : V) :
    LRUCache K V :=
  match c.put k v with
  | .ok c1 => c1
  | .error _ => c

/-- One get or put request against the cache. -/
inductive CacheOp (K V : Type) where
  | get : K → CacheOp K V
  | put : K → V → CacheOp K V

/-- State reached after one cache request. -/
def LRUCache.runOp [DecidableEq K] (c : LRUCache K V) : CacheOp K V → LRUCache K V
  | .get k => (c.get k).2
  | .put k v => c.putRun k v

/-- State reached after a sequence of cache requests. -/
def LRUCache.runOps [DecidableEq K] (c : LRUCache K V) (ops : List (CacheOp K V)) :
    LRUCache K V :=
  ops.foldl LRUCache.runOp c

/-- The empty cache with the given capacity. -/
def LRUCache.empty (n : Nat) : LRUCache K V := ⟨[], n⟩

/-- Modelled from the spec: the repository file agemcp/data_source_name.py
is not under src, and the spec treats the DSN type as an opaque value type
with the components listed in its glossary (driver, credentials, host,
port, database, query options). The SecretStr wrapper around the password
is modelled by the plain secret text. -/
structure DataSourceName where
  driver : String
  username : String
  password : Option String
  hostname : String
  port : Int
  database : Option String
  query : Option (List (String × String))
deriving DecidableEq

/-- Modelled from the spec: the DSN serializer to_string, opaque in the
spec; rendered in conventional URL order from the components. -/
def DataSourceName.render (d : DataSourceName) : String :=
  d.driver ++ "://" ++ d.username ++
    (match d.password with | some p => ":" ++ p | Option.none => "") ++
    "@" ++ d.hostname ++ ":" ++ toString d.port ++
    (match d.database with | some db => "/" ++ db | Option.none => "")

/-- Value of one engine keyword argument before None filtering. -/
inductive EngineArg where
  | bool : Bool → EngineArg
  | int : Int → EngineArg
  | null : EngineArg
deriving DecidableEq

/-- Lift an optional integer setting into an engine argument. -/
def EngineArg.ofOptInt : Option Int → EngineArg
  | some n => .int n
  | Option.none => .null

/-- Embedding of a SQLAlchemy AsyncEngine as far as this code observes it:
the URL string it was created from, the keyword arguments passed to
create_async_engine, and a creation counter giving each built engine its
identity. -/
structure AsyncEngine where
  url : String
  kwargs : List (String × EngineArg)
  engineId : Nat
deriving DecidableEq

/-- Embedding of an async_sessionmaker as far as this code observes it:
the identity of the engine it is bound to and the expire_on_commit flag. -/
structure SessionMaker where
  engineId : Nat
  expire_on_commit : Bool
deriving DecidableEq

/-- Embedding of DatabaseConnectionSettings from
src/agemcp/database_connection_settings.py: the pydantic fields with their
declared defaults, plus the two private attributes, which default to None
and are never assigned an engine anywhere in the code base. -/
structure DatabaseConnectionSettings where
  name : String
  dsn : DataSourceName
  echo : Bool := false
  encoding : String := "utf8"
  timezone : String := "UTC"
  readonly : Bool := false
  connection_timeout : Option Int := some 10
  command_timeout : Option Int := Option.none
  pool_min_connections : Option Int := some 5
  pool_max_connections : Option Int := some 10
  pool_max_idle_time : Option Int := some 300
  pool_max_lifetime : Option Int := some 3600
  pool_recycle_time : Option Int := some 1800
  pool_pre_ping : Bool := true
  pool_max_overflow : Option Int := some 10
  keepalives : Bool := true
  keepalives_idle : Option Int := some 60
  keepalives_interval : Option Int := some 10
  keepalives_count : Option Int := some 5
  _sqlalchemy_async_engine : Option AsyncEngine := Option.none
  _sqlalchemy_async_sessionmaker : Option SessionMaker := Option.none
deriving DecidableEq

namespace DatabaseConnectionSettings

/-- Embedding of the driver property getter. -/
def driver (s : DatabaseConnectionSettings) : String := s.dsn.driver

/-- Embedding of the driver property setter. -/
def set_driver (s : DatabaseConnectionSettings) (v : String) : DatabaseConnectionSettings :=
  { s with dsn := { s.dsn with driver := v } }

/-- Embedding of the username property getter. -/
def username (s : DatabaseConnectionSettings) : String := s.dsn.username

/-- Embedding of the username property setter. -/
def set_username (s : DatabaseConnectionSettings) (v : String) : DatabaseConnectionSettings :=
  { s with dsn := { s.dsn with username := v } }

/-- Embedding of the password property getter: the secret value when a
password is present, None otherwise. -/
def password (s : DatabaseConnectionSettings) : Option String := s.dsn.password

/-- Embedding of the password property setter: a falsy argument (None or
the empty string) stores None, anything else is wrapped as a secret. -/
def set_password (s : DatabaseConnectionSettings) (v : Option String) : DatabaseConnectionSettings :=
  { s with dsn := { s.dsn with password :=
      match v with
      | some p => if p = "" then Option.none else some p
      | Option.none => Option.none } }

/-- Embedding of the host property getter. -/
def host (s : DatabaseConnectionSettings) : String := s.dsn.hostname

/-- Embedding of the host property setter. -/
def set_host (s : DatabaseConnectionSettings) (v : String) : DatabaseConnectionSettings :=
  { s with dsn := { s.dsn with hostname := v } }

/-- Embedding of the port property getter. -/
def port (s : DatabaseConnectionSettings) : Int := s.dsn.port

/-- Embedding of the port property setter. -/
def set_port (s : DatabaseConnectionSettings) (v : Int) : DatabaseConnectionSettings :=
  { s with dsn := { s.dsn with port := v } }

/-- Embedding of the database property getter: the DSN database when set,
otherwise the empty string. -/
def database (s : DatabaseConnectionSettings) : String := (s.dsn.database).getD ""

/-- Embedding of the database property setter. -/
def set_database (s : DatabaseConnectionSettings) (v : String) : DatabaseConnectionSettings :=
  { s with dsn := { s.dsn with database := some v } }

/-- Embedding of the query property getter; the source defines no setter
for this property. -/
def query (s : DatabaseConnectionSettings) : Option (List (String × String)) := s.dsn.query

end DatabaseConnectionSettings

/-- Names of the seven accessor properties of DatabaseConnectionSettings. -/
inductive SettingsAccessor where
  | driver | username | password | host | port | database | query
deriving DecidableEq

/-- Possible right-hand sides of an accessor assignment. -/
inductive AccessorValue where
  | str : String → AccessorValue
  | optStr : Option String → AccessorValue
  | int : Int → AccessorValue
deriving DecidableEq

/-- Embedding of Python attribute assignment on the seven accessor
properties: the six properties that declare a setter delegate to it, while
assigning to query raises AttributeError because the source declares no
setter for it. Assignments whose value type no setter accepts are outside
the model and mapped to TypeError. -/
def setAccessor (s : DatabaseConnectionSettings) :
    SettingsAccessor → AccessorValue → Except String DatabaseConnectionSettings
  | .driver, .str v => .ok (s.set_driver v)
  | .username, .str v => .ok (s.set_username v)
  | .password, .optStr v => .ok (s.set_password v)
  | .password, .str v => .ok (s.set_password (some v))
  | .host, .str v => .ok (s.set_host v)
  | .port, .int v => .ok (s.set_port v)
  | .database, .str v => .ok (s.set_database v)
  | .query, _ => .error "AttributeError: property query has no setter"
  | _, _ => .error "TypeError: value shape outside model"

/-- Embedding of the engine_kwargs dictionary built inside
sqlalchemy_async_engine, including the filter that drops entries whose
value is None. -/
def engine_kwargs (s : DatabaseConnectionSettings) : List (String × EngineArg) :=
  ([("echo", EngineArg.bool s.echo),
    ("pool_size", EngineArg.ofOptInt s.pool_min_connections),
    ("max_overflow", EngineArg.ofOptInt s.pool_max_overflow),
    ("pool_timeout", EngineArg.ofOptInt s.connection_timeout),
    ("pool_recycle", EngineArg.ofOptInt s.pool_recycle_time),
    ("pool_pre_ping", EngineArg.bool s.pool_pre_ping),
    ("pool_use_lifo", EngineArg.bool false),
    ("future", EngineArg.bool true)]).filter
      (fun kv => match kv.2 with | EngineArg.null => false | _ => true)

/-- Explicit state for the two module-level context variables of
src/agemcp/database_connection_settings.py together with bookkeeping for
engine identity and for which engines had their pooled connections
closed by an engine dispose call. -/
structure EngineCtxState where
  engine_ctx : Option AsyncEngine := Option.none
  sessionmaker_ctx : Option SessionMaker := Option.none
  next_engine_id : Nat := 0
  disposed : List Nat := []
deriving DecidableEq

/-- Embedding of sqlalchemy_async_engine: return the context-cached engine
when present, otherwise build one from this instance's DSN string and
engine keyword arguments and store it in the context variable. -/
def sqlalchemy_async_engine (s : DatabaseConnectionSettings) (st : EngineCtxState) :
    AsyncEngine × EngineCtxState :=
  match st.engine_ctx with
  | some e => (e, st)
  | Option.none =>
      let e : AsyncEngine := ⟨s.dsn.render, engine_kwargs s, st.next_engine_id⟩
      (e, { st with engine_ctx := some e, next_engine_id := st.next_engine_id + 1 })

/-- Embedding of sqlalchemy_dispose_async_engine: the guard reads only the
private attribute of the instance; when it holds an engine that engine's
pool is closed and the attribute cleared, and otherwise nothing at all
happens — the two context variables are never read or written here. -/
def sqlalchemy_dispose_async_engine (s : DatabaseConnectionSettings) (st : EngineCtxState) :
    DatabaseConnectionSettings × EngineCtxState :=
  match s._sqlalchemy_async_engine with
  | some e =>
      ({ s with _sqlalchemy_async_engine := Option.none },
       { st with disposed := st.disposed ++ [e.engineId] })
  | Option.none => (s, st)

/-- Embedding of sqlalchemy_sessionmaker: return the context-cached
session factory when present, otherwise build one bound to the engine
from sqlalchemy_async_engine with expire_on_commit disabled and store it
in the context variable. -/
def sqlalchemy_sessionmaker (s : DatabaseConnectionSettings) (st : EngineCtxState) :
    SessionMaker × EngineCtxState :=
  match st.sessionmaker_ctx with
  | some sm => (sm, st)
  | Option.none =>
      let (e, st1) := sqlalchemy_async_engine s st
      let sm : SessionMaker := ⟨e.engineId, false⟩
      (sm, { st1 with sessionmaker_ctx := some sm })

/-- Sample tagged agtype scalar used by the spec's decode_row example. -/
def taggedPersonStr : String := "\x7b\"label\":\"Person\"\x7d::vertex"

/-- Sample row carrying the tagged scalar above. -/
def taggedRow : List (String × PyVal) := [("v", PyVal.str taggedPersonStr)]

/-- Sample vertex record with JSON-representable properties. -/
def sampleVertex : AgtypeRecord :=
  { label := .str "Person", properties := .dict [("name", .str "Ada")],
    id := .int 7, start_id := .none, end_id := .none, _type := .none }

/-- Sample edge record. -/
def sampleEdge : AgtypeRecord :=
  { label := .str "KNOWS", properties := .dict [],
    id := .int 1, start_id := .int 2, end_id := .int 3, _type := .none }

/-- Sample DSN for the first connection settings instance. -/
def dsnA : DataSourceName :=
  ⟨"postgresql+asyncpg", "alice", some "pw", "db1.example.com", 5432,
   some "graphdb", Option.none⟩

/-- Sample DSN for a second, differently configured instance. -/
def dsnB : DataSourceName :=
  ⟨"postgresql+asyncpg", "bob", Option.none, "db2.example.com", 5433,
   some "otherdb", Option.none⟩

/-- Sample connection settings built on the first DSN. -/
def settingsA : DatabaseConnectionSettings := { name := "a", dsn := dsnA }

/-- Sample connection settings built on the second DSN. -/
def settingsB : DatabaseConnectionSettings := { name := "b", dsn := dsnB }

/-- Fresh execution-context state with empty caches. -/
def emptyCtx : EngineCtxState := {}

/-!
Helper lemmas shared by the claim theorems below.
-/

/-- The per-row iteration of decode_record agrees with the spec's wording of
the decode_row contract for every row. -/
theorem decode_record_eq_rowSpec (row : List (String × PyVal)) :
    decode_record row = decodeRowSpec row := by
  induction row with
  | nil => rfl
  | cons kv rest ih =>
    obtain ⟨k, v⟩ := kv
    simp only [decodeRowSpec, List.mapM_cons] at ih ⊢
    rw [← ih]
    cases v with
    | str s =>
        by_cases hc : strContains s "::" = true
        · simp only [decode_record, hc, if_pos]
          cases hd : decode_agtype_string s <;> rfl
        · simp only [decode_record, hc, if_neg, Bool.false_eq_true, not_false_iff]
          rfl
    | int n => rfl
    | bool b => rfl
    | none => rfl
    | list xs => rfl
    | dict kvs => rfl

/-- The filterMap form of the tagged-string collection agrees with the
recursive row collection of the reference algorithm. -/
theorem collectRow_eq (row : List (String × PyVal)) :
    (row.filterMap fun kv =>
      match kv.2 with
      | PyVal.str s => if strContains s "::" then some s else Option.none
      | _ => Option.none) = collectTaggedRow row := by
  induction row with
  | nil => rfl
  | cons kv rest ih =>
    obtain ⟨k, v⟩ := kv
    simp only [List.filterMap_cons, collectTaggedRow]
    cases v with
    | str s =>
        by_cases hc : strContains s "::" = true
        · simp [hc, ih]
        · simp [hc, ih]
    | int n => simpa using ih
    | bool b => simpa using ih
    | none => simpa using ih
    | list xs => simpa using ih
    | dict kvs => simpa using ih

/-- The flatMap collection of the source agrees with the row-by-row
collection of the reference algorithm. -/
theorem collect_eq (records : List (List (String × PyVal))) :
    collectAgtypeStrings records = collectTagged records := by
  induction records with
  | nil => rfl
  | cons row rest ih =>
    simp only [collectAgtypeStrings, collectTagged, List.flatMap_cons] at ih ⊢
    rw [ih, collectRow_eq]

/-- The source batch decoder and the reference batch decoder agree on every
input. -/
theorem batch_eq_spec (rows : List (List (String × PyVal))) :
    decode_asyncio_agtype_recordset rows = decodeBatchSpec rows := by
  unfold decode_asyncio_agtype_recordset decodeBatchSpec
  rw [collect_eq]
  cases h : collectTagged rows with
  | nil => rfl
  | cons a l =>
      simp only [List.isEmpty_cons, if_neg]
      cases hj : json_loads ("[" ++ pyReplace (pyReplace (String.intercalate "," (a :: l))
          "::vertex" "") "::edge" "" ++ "]") with
      | error e => rfl
      | ok v => cases v <;> rfl

/-- A put of a key absent from a full nonempty cache evicts the
least-recent entry and appends the new pair. -/
theorem putRun_fresh_at_capacity {K V : Type} [DecidableEq K] (e : K × V)
    (rest : List (K × V)) (N : Nat) (p : K × V)
    (hmem : p.1 ∉ (e :: rest).map Prod.fst) (hc : N ≤ rest.length + 1) :
    LRUCache.putRun (⟨e :: rest, N⟩ : LRUCache K V) p.1 p.2 = ⟨rest ++ [p], N⟩ := by
  unfold LRUCache.putRun LRUCache.put
  rw [if_neg hmem]
  simp only [List.length_cons]
  rw [if_pos hc]

/-- A put of a key absent from a cache below capacity appends the pair. -/
theorem putRun_fresh_below {K V : Type} [DecidableEq K] (l : List (K × V)) (N : Nat)
    (p : K × V) (hmem : p.1 ∉ l.map Prod.fst) (hc : ¬ N ≤ l.length) :
    LRUCache.putRun (⟨l, N⟩ : LRUCache K V) p.1 p.2 = ⟨l ++ [p], N⟩ := by
  unfold LRUCache.putRun LRUCache.put
  rw [if_neg hmem, if_neg hc]

/-- Sliding-window characterisation of a run of puts of pairwise distinct
fresh keys: the final cache contents are the last max_size pairs of the
initial contents followed by the inserted pairs. -/
theorem runPuts_window {K V : Type} [DecidableEq K] (N : Nat) :
    ∀ (ps l : List (K × V)), ((l ++ ps).map Prod.fst).Nodup → l.length ≤ N →
    (LRUCache.runOps ⟨l, N⟩ (ps.map fun p => CacheOp.put p.1 p.2)).cache
      = (l ++ ps).drop (l.length + ps.length - N) := by
  intro ps
  induction ps with
  | nil =>
      intro l h hl
      simp only [List.map_nil, LRUCache.runOps, List.foldl_nil, List.append_nil,
        List.length_nil, Nat.add_zero]
      rw [Nat.sub_eq_zero_of_le hl, List.drop_zero]
  | cons p ps ih =>
      intro l h hl
      have hmem : p.1 ∉ l.map Prod.fst := by
        intro hin
        rw [List.map_append, List.nodup_append] at h
        exact h.2.2 hin (by simp)
      have hfold : (LRUCache.runOps (⟨l, N⟩ : LRUCache K V)
            ((p :: ps).map fun q => CacheOp.put q.1 q.2))
          = LRUCache.runOps (LRUCache.putRun ⟨l, N⟩ p.1 p.2)
              (ps.map fun q => CacheOp.put q.1 q.2) := by
        simp only [List.map_cons, LRUCache.runOps, List.foldl_cons]
        rfl
      rw [hfold]
      by_cases hc : N ≤ l.length
      · have hlN : l.length = N := Nat.le_antisymm hl hc
        cases l with
        | nil =>
            have hN0 : N = 0 := by simpa using hlN.symm
            subst hN0
            rw [show LRUCache.putRun (⟨[], 0⟩ : LRUCache K V) p.1 p.2 = ⟨[], 0⟩ from rfl]
            have h2 : ((([] : List (K × V)) ++ ps).map Prod.fst).Nodup := by
              simp only [List.nil_append]
              simp only [List.nil_append, List.map_cons, List.nodup_cons] at h
              exact h.2
            rw [ih [] h2 (by simp)]
            simp [List.drop_length]
        | cons e rest =>
            have hcap : N ≤ rest.length + 1 := by
              simp only [List.length_cons] at hlN
              omega
            rw [putRun_fresh_at_capacity e rest N p hmem hcap]
            have h3 : (rest ++ [p]) ++ ps = rest ++ p :: ps := by simp
            have hnd2 : (((rest ++ [p]) ++ ps).map Prod.fst).Nodup := by
              rw [h3]
              simp only [List.cons_append, List.map_cons, List.nodup_cons] at h
              exact h.2
            have hlen2 : (rest ++ [p]).length ≤ N := by
              simp only [List.length_append, List.length_singleton, List.length_nil,
                List.length_cons]
              simp only [List.length_cons] at hlN
              omega
            rw [ih (rest ++ [p]) hnd2 hlen2, h3]
            have hi1 : (rest ++ [p]).length + ps.length - N = ps.length := by
              simp only [List.length_append, List.length_singleton, List.length_nil,
                List.length_cons]
              simp only [List.length_cons] at hlN
              omega
            have hi2 : (e :: rest).length + (p :: ps).length - N = ps.length + 1 := by
              simp only [List.length_cons]
              simp only [List.length_cons] at hlN
              omega
            rw [hi1, hi2, List.cons_append, List.drop_succ_cons]
      · rw [putRun_fresh_below l N p hmem hc]
        have h3 : (l ++ [p]) ++ ps = l ++ p :: ps := by simp
        have hnd2 : (((l ++ [p]) ++ ps).map Prod.fst).Nodup := by
          rw [h3]; exact h
        have hlen2 : (l ++ [p]).length ≤ N := by
          simp only [List.length_append, List.length_singleton, List.length_nil,
            List.length_cons]
          omega
        rw [ih (l ++ [p]) hnd2 hlen2, h3]
        have hi : (l ++ [p]).length + ps.length - N = l.length + (p :: ps).length - N := by
          simp only [List.length_append, List.length_singleton, List.length_nil,
            List.length_cons]
          omega
        rw [hi]

/-- One cache request preserves the capacity bound and the capacity. -/
theorem runOp_le {K V : Type} [DecidableEq K] (c : LRUCache K V) (op : CacheOp K V)
    (h : c.cache.length ≤ c.max_size) :
    (c.runOp op).cache.length ≤ c.max_size ∧ (c.runOp op).max_size = c.max_size := by
  cases op with
  | get k =>
      show ((c.get k).2.cache.length ≤ c.max_size ∧ (c.get k).2.max_size = c.max_size)
      unfold LRUCache.get
      cases hf : c.cache.find? (fun p => decide (p.1 = k)) with
      | none => exact ⟨h, rfl⟩
      | some p =>
          have hp := List.find?_some hf
          have hm : p ∈ c.cache := List.mem_of_find?_eq_some hf
          have hpos : 0 < c.cache.length := List.length_pos.mpr (List.ne_nil_of_mem hm)
          have hany : c.cache.any (fun q => decide (q.1 = k)) = true :=
            List.any_eq_true.mpr ⟨p, hm, by simpa using hp⟩
          constructor
          · simp only [List.length_append, List.length_singleton, List.length_nil,
              List.length_cons, List.length_eraseP, hany, if_pos]
            omega
          · rfl
  | put k v =>
      show (c.putRun k v).cache.length ≤ c.max_size ∧ (c.putRun k v).max_size = c.max_size
      unfold LRUCache.putRun LRUCache.put
      by_cases h1 : k ∈ c.cache.map Prod.fst
      · rw [if_pos h1]
        obtain ⟨q, hq, hqk⟩ := List.mem_map.mp h1
        have hpos : 0 < c.cache.length := List.length_pos.mpr (List.ne_nil_of_mem hq)
        have hany : c.cache.any (fun r => decide (r.1 = k)) = true :=
          List.any_eq_true.mpr ⟨q, hq, by simp [hqk]⟩
        constructor
        · simp only [List.length_append, List.length_singleton, List.length_nil,
            List.length_cons, List.length_eraseP, hany, if_pos]
          omega
        · rfl
      · rw [if_neg h1]
        by_cases h2 : c.max_size ≤ c.cache.length
        · rw [if_pos h2]
          cases hc : c.cache with
          | nil =>
              refine ⟨?_, rfl⟩
              show c.cache.length ≤ c.max_size
              rw [hc]
              simp
          | cons e rest =>
              rw [hc] at h
              simp only [List.length_cons] at h
              constructor
              · simp only [List.length_append, List.length_singleton, List.length_nil,
                  List.length_cons]
                omega
              · rfl
        · rw [if_neg h2]
          constructor
          · simp only [List.length_append, List.length_singleton, List.length_nil,
              List.length_cons]
            omega
          · rfl

/-- A run of cache requests preserves the capacity bound and the capacity. -/
theorem runOps_le {K V : Type} [DecidableEq K] (ops : List (CacheOp K V)) :
    ∀ c : LRUCache K V, c.cache.length ≤ c.max_size →
      (c.runOps ops).cache.length ≤ c.max_size ∧ (c.runOps ops).max_size = c.max_size := by
  induction ops with
  | nil => intro c h; exact ⟨h, rfl⟩
  | cons op ops ih =>
      intro c h
      have hstep := runOp_le c op h
      have hfold : c.runOps (op :: ops) = (c.runOp op).runOps ops := by
        simp [LRUCache.runOps]
      rw [hfold]
      have hih := ih (c.runOp op) (by rw [hstep.2]; exact hstep.1)
      constructor
      · rw [← hstep.2]; exact hih.1
      · rw [hih.2, hstep.2]

/-- A put succeeds whenever the capacity is positive or the cache is
nonempty. -/
theorem put_isOk {K V : Type} [DecidableEq K] (c : LRUCache K V) (k : K) (v : V)
    (h : 0 < c.max_size ∨ c.cache ≠ []) : (c.put k v).isOk = true := by
  unfold LRUCache.put
  by_cases h1 : k ∈ c.cache.map Prod.fst
  · rw [if_pos h1]; rfl
  · rw [if_neg h1]
    by_cases h2 : c.max_size ≤ c.cache.length
    · rw [if_pos h2]
      cases hc : c.cache with
      | nil =>
          exfalso
          rcases h with h | h
          · rw [hc] at h2; simp only [List.length_nil, Nat.le_zero] at h2; omega
          · exact h hc
      | cons e rest => rfl
    · rw [if_neg h2]; rfl

/-!
Claim theorems.
-/

/-- Claim C1, counterexample: on the row whose value is the tagged string
from the spec's example, decode_row does not return the decoded JSON
payload — the scalar decoder passes the tagged string through unchanged,
because the trailing type tag means the string does not end with a closing
brace. -/
theorem decode_row_tagged_example_not_decoded :
    decode_record taggedRow ≠ Except.ok [("v", PyVal.dict [("label", PyVal.str "Person")])] := by
  rw [show decode_record taggedRow = Except.ok taggedRow from rfl]
  simp [taggedRow, taggedPersonStr]

/-- Claim C1 (amended): decode_row on the spec's example row returns the
row unchanged — the tagged string is fed to the scalar decoder, which
passes it through — and in general, for every row, every string value
containing the substring :: is replaced by the scalar decoder's result and
every other value passes through unchanged. -/
theorem decode_row_passthrough_and_scalar_decoding :
    decode_record taggedRow = Except.ok taggedRow
    ∧ ∀ row, decode_record row = decodeRowSpec row :=
  ⟨rfl, decode_record_eq_rowSpec⟩

/-- Claim C2 (code bug evidence): after the engine and session factory have
been built and cached in the context variables, the dispose call returns
the settings and the context state entirely unchanged — it closes no
pooled connections, clears neither cache, and the next engine acquisition
returns the original cached engine rather than building a fresh one. The
guard of the dispose method reads a private attribute that no code path
ever assigns. -/
theorem dispose_leaves_context_cache_untouched :
    sqlalchemy_dispose_async_engine settingsA (sqlalchemy_sessionmaker settingsA emptyCtx).2
      = (settingsA, (sqlalchemy_sessionmaker settingsA emptyCtx).2)
    ∧ (sqlalchemy_async_engine settingsA
        (sqlalchemy_dispose_async_engine settingsA
          (sqlalchemy_sessionmaker settingsA emptyCtx).2).2).1
      = (sqlalchemy_async_engine settingsA emptyCtx).1
    ∧ (sqlalchemy_dispose_async_engine settingsA
        (sqlalchemy_sessionmaker settingsA emptyCtx).2).2.disposed = []
    ∧ (sqlalchemy_dispose_async_engine settingsA
        (sqlalchemy_sessionmaker settingsA emptyCtx).2).2.sessionmaker_ctx
      = some ⟨0, false⟩ :=
  ⟨rfl, rfl, rfl, rfl⟩

/-- Claim C3: the engine cache is a single module-level context variable
not keyed by instance, so once any instance has built the engine, a call
on any other instance returns that same engine object — built from the
first instance's DSN string and engine keyword arguments — ignoring the
second instance's own settings. -/
theorem engine_cache_shared_across_instances (s1 s2 : DatabaseConnectionSettings)
    (st : EngineCtxState) (h : st.engine_ctx = Option.none) :
    (sqlalchemy_async_engine s2 (sqlalchemy_async_engine s1 st).2).1
      = (sqlalchemy_async_engine s1 st).1
    ∧ (sqlalchemy_async_engine s1 st).1.url = s1.dsn.render
    ∧ (sqlalchemy_async_engine s1 st).1.kwargs = engine_kwargs s1 := by
  unfold sqlalchemy_async_engine
  rw [h]
  exact ⟨rfl, rfl, rfl⟩

/-- Claim C3, witness: concrete instantiation with two differently
configured settings instances on a fresh context. -/
theorem engine_cache_shared_across_instances_witness :
    (sqlalchemy_async_engine settingsB (sqlalchemy_async_engine settingsA emptyCtx).2).1
      = (sqlalchemy_async_engine settingsA emptyCtx).1
    ∧ (sqlalchemy_async_engine settingsA emptyCtx).1.url = settingsA.dsn.render :=
  ⟨(engine_cache_shared_across_instances settingsA settingsB emptyCtx rfl).1,
   (engine_cache_shared_across_instances settingsA settingsB emptyCtx rfl).2.1⟩

/-- Claim C4: the batch decoder equals the reference algorithm assembled
from the spec's steps — collect the ::-bearing strings in row order then
column order, return the empty sequence when none are found, otherwise
join with commas, strip the vertex and edge tags in a single left-to-right
pass each, wrap in brackets, parse once and return the elements in order,
with malformed JSON aborting the whole batch — and on tag-free nonempty
rows it returns the empty sequence. -/
theorem decode_batch_matches_reference :
    (∀ rows, decode_asyncio_agtype_recordset rows = decodeBatchSpec rows)
    ∧ decode_asyncio_agtype_recordset [[("a", PyVal.int 1)], [("b", PyVal.str "plain")]]
      = Except.ok [] :=
  ⟨batch_eq_spec, rfl⟩

/-- Claim C5: for every valid record — one whose label and properties are
not None, as construction guarantees — converting to a dictionary and back
yields a value-equal record. -/
theorem record_roundtrip_from_dict_to_dict (r : AgtypeRecord)
    (h1 : r.label.isNone = false) (h2 : r.properties.isNone = false) :
    AgtypeRecord.from_dict (AgtypeRecord.to_dict r) = Except.ok r := by
  have h : AgtypeRecord.from_dict (AgtypeRecord.to_dict r)
      = mkAgtypeRecord r.label r.properties r.id r.start_id r.end_id r._type := rfl
  rw [h, mkAgtypeRecord]
  simp [h1, h2]

/-- Claim C5, witness: the round trip on a concrete vertex record with
JSON-representable properties. -/
theorem record_roundtrip_from_dict_to_dict_witness :
    AgtypeRecord.from_dict (AgtypeRecord.to_dict sampleVertex) = Except.ok sampleVertex :=
  record_roundtrip_from_dict_to_dict sampleVertex rfl rfl

/-- Claim C6: inserting N + 1 distinct keys into an empty cache of capacity
N leaves exactly the last N insertions present, hence N entries with the
first-inserted key absent; every sequence of get and put requests keeps
the cache at or below capacity; and a put on a present key produces the
cache with that key's old entry removed and the new pair appended at the
most-recent end, preserving the entry count. -/
theorem lru_capacity_and_eviction :
    (∀ (N : Nat) (ps : List (Nat × Nat)), (ps.map Prod.fst).Nodup → ps.length = N + 1 →
       (LRUCache.runOps (LRUCache.empty N) (ps.map fun p => CacheOp.put p.1 p.2)).cache = ps.drop 1
       ∧ (LRUCache.runOps (LRUCache.empty N) (ps.map fun p => CacheOp.put p.1 p.2)).cache.length = N
       ∧ (∀ p0, ps.head? = some p0 →
            p0.1 ∉ ((LRUCache.runOps (LRUCache.empty N)
              (ps.map fun p => CacheOp.put p.1 p.2)).cache.map Prod.fst)))
    ∧ (∀ (N : Nat) (ops : List (CacheOp Nat Nat)),
        (LRUCache.runOps (LRUCache.empty N) ops).cache.length ≤ N)
    ∧ (∀ (c : LRUCache Nat Nat) (k v : Nat), k ∈ c.cache.map Prod.fst →
        c.put k v = Except.ok ⟨(c.cache.eraseP fun q => decide (q.1 = k)) ++ [(k, v)], c.max_size⟩
        ∧ ((c.cache.eraseP fun q => decide (q.1 = k)) ++ [(k, v)]).length = c.cache.length) := by
  refine ⟨?_, ?_, ?_⟩
  · intro N ps h1 h2
    have hw := runPuts_window N ps [] (by simpa using h1) (by simp)
    have hidx : ([] : List (Nat × Nat)).length + ps.length - N = 1 := by
      simp only [List.length_nil, Nat.zero_add, h2]
      omega
    rw [hidx] at hw
    simp only [List.nil_append] at hw
    have hcache : (LRUCache.runOps (LRUCache.empty N)
        (ps.map fun p => CacheOp.put p.1 p.2)).cache = ps.drop 1 := hw
    refine ⟨hcache, ?_, ?_⟩
    · rw [hcache, List.length_drop, h2]
      omega
    · intro p0 hp0
      rw [hcache]
      cases ps with
      | nil => simp at hp0
      | cons q qs =>
          simp only [List.head?_cons, Option.some.injEq] at hp0
          subst hp0
          simp only [List.drop_succ_cons, List.drop_zero]
          simp only [List.map_cons, List.nodup_cons] at h1
          exact h1.1
  · intro N ops
    exact (runOps_le ops (LRUCache.empty N) (by simp [LRUCache.empty])).1
  · intro c k v h
    constructor
    · unfold LRUCache.put
      rw [if_pos h]
    · obtain ⟨q, hq, hqk⟩ := List.mem_map.mp h
      have hpos : 0 < c.cache.length := List.length_pos.mpr (List.ne_nil_of_mem hq)
      have hany : c.cache.any (fun r => decide (r.1 = k)) = true :=
        List.any_eq_true.mpr ⟨q, hq, by simp [hqk]⟩
      simp only [List.length_append, List.length_singleton, List.length_nil,
        List.length_cons, List.length_eraseP, hany, if_pos]
      omega

/-- Claim C6, witness: three distinct keys into a capacity-two cache keep
only the last two, and a put on an already-present key replaces its entry
in place. -/
theorem lru_capacity_and_eviction_witness :
    (LRUCache.runOps (LRUCache.empty 2)
        ([((1:Nat),(10:Nat)),(2,20),(3,30)].map fun p => CacheOp.put p.1 p.2)).cache
      = [(2,20),(3,30)]
    ∧ LRUCache.put (⟨[((5:Nat),(50:Nat))], 3⟩ : LRUCache Nat Nat) 5 99
      = Except.ok ⟨[(5, 99)], 3⟩ :=
  ⟨(lru_capacity_and_eviction.1 2 [(1,10),(2,20),(3,30)] (by decide) (by decide)).1,
   (lru_capacity_and_eviction.2.2 ⟨[(5,50)], 3⟩ 5 99 (by decide)).1⟩

/-- Claim C7, counterexample: a put of a new key into an empty cache whose
capacity is zero raises KeyError — the eviction branch pops from an empty
ordered dict — so put does not always succeed. -/
theorem put_zero_capacity_raises :
    LRUCache.put (⟨[], 0⟩ : LRUCache Nat Nat) 1 2
      = Except.error "KeyError: dictionary is empty" := rfl

/-- Claim C7 (amended): get on a missing key returns None as a normal
result, clear never grows the cache and always succeeds, and put succeeds
on every cache whose capacity is positive or whose contents are nonempty —
the single failing case being a new key into an empty zero-capacity
cache. -/
theorem cache_ops_failure_semantics {K V : Type} [DecidableEq K] (c : LRUCache K V)
    (k : K) (v : V) (f : Option ((K × V) → Bool)) :
    (k ∉ c.cache.map Prod.fst → (c.get k).1 = Option.none)
    ∧ (0 < c.max_size ∨ c.cache ≠ [] → (c.put k v).isOk = true)
    ∧ (c.clear f).cache.length ≤ c.cache.length := by
  refine ⟨?_, put_isOk c k v, ?_⟩
  · intro hk
    unfold LRUCache.get
    have hf : c.cache.find? (fun p => decide (p.1 = k)) = Option.none := by
      rw [List.find?_eq_none]
      intro x hx
      simp only [decide_eq_true_eq]
      intro hxk
      exact hk (List.mem_map.mpr ⟨x, hx, hxk⟩)
    rw [hf]
  · cases f with
    | none => simp [LRUCache.clear]
    | some pred => simpa [LRUCache.clear] using List.length_filter_le _ c.cache

/-- Claim C7, witness: the failure-semantics theorem instantiated on an
empty cache of capacity five. -/
theorem cache_ops_failure_semantics_witness :
    ((⟨[], 5⟩ : LRUCache Nat Nat).get 3).1 = Option.none
    ∧ ((⟨[], 5⟩ : LRUCache Nat Nat).put 3 4).isOk = true :=
  ⟨(cache_ops_failure_semantics (⟨[], 5⟩ : LRUCache Nat Nat) 3 4 Option.none).1 (by decide),
   (cache_ops_failure_semantics (⟨[], 5⟩ : LRUCache Nat Nat) 3 4 Option.none).2.1
     (Or.inl (by decide))⟩

/-- Claim C8, counterexample: a record with the empty string as its label
is accepted by construction — only a None label is rejected — so a record
can be constructed with an empty label. -/
theorem empty_label_accepted :
    mkAgtypeRecord (PyVal.str "") (PyVal.dict []) PyVal.none PyVal.none PyVal.none PyVal.none
      = Except.ok { label := PyVal.str "", properties := PyVal.dict [], id := PyVal.none,
                    start_id := PyVal.none, end_id := PyVal.none, _type := PyVal.none } := rfl

/-- Claim C8 (amended): construction rejects a None label with TypeError;
any successfully constructed record has a non-None label and non-None
properties; and a dictionary without a properties key constructs a record
whose properties default to the empty mapping. The empty string, however,
is accepted as a label. -/
theorem label_null_rejected_properties_never_null :
    (∀ props i s e t, (mkAgtypeRecord PyVal.none props i s e t).isOk = false)
    ∧ (∀ lbl props i s e t r, mkAgtypeRecord lbl props i s e t = Except.ok r →
         r.properties.isNone = false ∧ r.label = lbl)
    ∧ (∀ lbl, lbl.isNone = false →
         AgtypeRecord.from_dict [("label", lbl)]
           = Except.ok { label := lbl, properties := PyVal.dict [], id := PyVal.none,
                         start_id := PyVal.none, end_id := PyVal.none, _type := PyVal.none }) := by
  refine ⟨fun props i s e t => rfl, ?_, ?_⟩
  · intro lbl props i s e t r h
    rw [mkAgtypeRecord] at h
    by_cases hb : lbl.isNone = true
    · simp [hb] at h
    · simp only [hb, if_neg, Bool.false_eq_true, not_false_iff, Except.ok.injEq] at h
      subst h
      refine ⟨?_, rfl⟩
      by_cases hp : props.isNone = true
      · rw [if_pos hp]; rfl
      · rw [if_neg hp]; simpa using hp
  · intro lbl h
    have heq : AgtypeRecord.from_dict [("label", lbl)]
        = mkAgtypeRecord lbl (PyVal.dict []) PyVal.none PyVal.none PyVal.none PyVal.none := rfl
    rw [heq, mkAgtypeRecord]
    simp [h]

/-- Claim C8, witness: the amended invariants instantiated on concrete
constructions. -/
theorem label_null_rejected_properties_never_null_witness :
    (sampleVertex.properties.isNone = false ∧ sampleVertex.label = PyVal.str "Person")
    ∧ AgtypeRecord.from_dict [("label", PyVal.str "X")]
      = Except.ok { label := PyVal.str "X", properties := PyVal.dict [], id := PyVal.none,
                    start_id := PyVal.none, end_id := PyVal.none, _type := PyVal.none } :=
  ⟨label_null_rejected_properties_never_null.2.1 (PyVal.str "Person")
      (PyVal.dict [("name", PyVal.str "Ada")]) (PyVal.int 7) PyVal.none PyVal.none PyVal.none
      sampleVertex rfl,
   label_null_rejected_properties_never_null.2.2 (PyVal.str "X") rfl⟩

/-- Claim C9: an explicitly supplied kind wins; with no explicit kind the
record classifies as an edge exactly when both identifiers are non-null,
and as a vertex exactly when either is null. -/
theorem record_classification (r : AgtypeRecord) :
    (r._type.isNone = false → r.type = r._type)
    ∧ (r._type.isNone = true →
        ((r.type = PyVal.str "edge" ↔ r.start_id.isNone = false ∧ r.end_id.isNone = false)
         ∧ (r.type = PyVal.str "vertex" ↔ (r.start_id.isNone = true ∨ r.end_id.isNone = true)))) := by
  unfold AgtypeRecord.type
  constructor
  · intro h; simp [h]
  · intro h
    simp only [h, if_pos]
    by_cases h1 : r.start_id.isNone = true <;> by_cases h2 : r.end_id.isNone = true <;>
      simp [h1, h2]

/-- Claim C9, witness: a record with both identifiers classifies as an
edge and a record without them classifies as a vertex. -/
theorem record_classification_witness :
    sampleEdge.type = PyVal.str "edge" ∧ sampleVertex.type = PyVal.str "vertex" :=
  ⟨((record_classification sampleEdge).2 rfl).1.mpr ⟨rfl, rfl⟩,
   ((record_classification sampleVertex).2 rfl).2.mpr (Or.inl rfl)⟩

/-- Claim C10, counterexample: assigning to the query accessor raises
AttributeError because the source declares no setter for that property, so
not all seven listed accessors write through to the DSN. -/
theorem query_accessor_has_no_setter :
    setAccessor settingsA SettingsAccessor.query (AccessorValue.str "x")
      = Except.error "AttributeError: property query has no setter" := rfl

/-- Claim C10 (amended): the six accessors driver, username, password,
host, port and database both read from and write through to the underlying
DSN — in particular setting host to x makes the DSN's host component x —
while query reads through but has no setter, every assignment to it
raising AttributeError. -/
theorem accessor_pass_through (s : DatabaseConnectionSettings) (v : String) (p : Int) :
    ((s.set_host v).dsn.hostname = v ∧ (s.set_host v).host = v)
    ∧ ((s.set_driver v).dsn.driver = v ∧ (s.set_driver v).driver = v)
    ∧ ((s.set_username v).dsn.username = v ∧ (s.set_username v).username = v)
    ∧ ((s.set_port p).dsn.port = p ∧ (s.set_port p).port = p)
    ∧ ((s.set_database v).dsn.database = some v ∧ (s.set_database v).database = v)
    ∧ (v ≠ "" → ((s.set_password (some v)).dsn.password = some v
         ∧ (s.set_password (some v)).password = some v))
    ∧ (s.query = s.dsn.query ∧ s.host = s.dsn.hostname)
    ∧ (∀ val, setAccessor s SettingsAccessor.query val
         = Except.error "AttributeError: property query has no setter") := by
  refine ⟨⟨rfl, rfl⟩, ⟨rfl, rfl⟩, ⟨rfl, rfl⟩, ⟨rfl, rfl⟩, ⟨rfl, rfl⟩, ?_, ⟨rfl, rfl⟩, ?_⟩
  · intro hv
    constructor
    · simp [DatabaseConnectionSettings.set_password, hv]
    · simp [DatabaseConnectionSettings.set_password, DatabaseConnectionSettings.password, hv]
  · intro val
    cases val <;> rfl

/-- Claim C10, witness: the pass-through theorem instantiated on the
sample settings with a concrete host and password. -/
theorem accessor_pass_through_witness :
    (settingsA.set_host "x").dsn.hostname = "x"
    ∧ (settingsA.set_password (some "pw2")).password = some "pw2" :=
  ⟨(accessor_pass_through settingsA "x" 1).1.1,
   ((accessor_pass_through settingsA "pw2" 1).2.2.2.2.2.1 (by decide)).2⟩

end Agemcp
